import Mathlib

/-!
Verification development for the linear-region extraction engine of the
modulo-de-young repository (src/index_auto.py and src/index_semiauto_data.py).

The engine is embedded shallowly:
* machine floats become exact rationals (ℚ); a float NaN produced by the code
  is modelled as `Option.none`;
* `scipy.stats.linregress` is modelled field by field from its
  exact-arithmetic semantics as used by the code: it raises `ValueError`
  (modelled `Except.error`) on empty input, and on identical x values when
  the input has more than one point (scipy guards that check with
  `len(x) > 1`, so a single point yields NaN slope and intercept with
  `r = 0.0` instead of raising); otherwise it returns slope / intercept / r
  where `r_squared = r * r`;
* the sliding-window search `hunting_E_best_R2`, the fixed 10%-40% range
  selection, the per-specimen pipeline `processar_cp` and the batch loop of
  `main` are translated statement by statement.
-/

deriving instance DecidableEq for Except

/-- A curve sample: `(x, y)` = (deformacao_especifica, tensao_pa). -/
abbrev DataPoint : Type := ℚ × ℚ

/-! ### LinearFitter: model of scipy.stats.linregress as invoked by the code -/

/-- Failure modes of `scipy.stats.linregress` (raised as `ValueError` in the
code and caught by every caller): empty input, or all x values identical. -/
inductive LinRegError : Type
  | emptyInput : LinRegError
  | identicalX : LinRegError
deriving DecidableEq

/-- Slope, intercept and coefficient of determination of an ordinary
least-squares fit (`r_squared = r_value ** 2` as computed by the callers).
Slope and intercept are float NaN (modelled `none`) exactly when the x
variance is zero, which scipy reaches without raising only on a single-point
input; `r` (and hence `r_squared`) is always a number. -/
structure LinRegResult : Type where
  slope : Option ℚ
  intercept : Option ℚ
  r2 : ℚ
deriving DecidableEq

/-- Mean of the x column. -/
def xmean (pts : List DataPoint) : ℚ := (pts.map (fun p => p.1)).sum / pts.length

/-- Mean of the y column. -/
def ymean (pts : List DataPoint) : ℚ := (pts.map (fun p => p.2)).sum / pts.length

/-- Biased sample variance of x (`ssxm` in scipy's linregress). -/
def ssxm (pts : List DataPoint) : ℚ :=
  (pts.map (fun p => (p.1 - xmean pts) * (p.1 - xmean pts))).sum / pts.length

/-- Biased sample variance of y (`ssym` in scipy's linregress). -/
def ssym (pts : List DataPoint) : ℚ :=
  (pts.map (fun p => (p.2 - ymean pts) * (p.2 - ymean pts))).sum / pts.length

/-- Biased sample covariance of x and y (`ssxym` in scipy's linregress). -/
def ssxym (pts : List DataPoint) : ℚ :=
  (pts.map (fun p => (p.1 - xmean pts) * (p.2 - ymean pts))).sum / pts.length

/-- Model of scipy's test `np.amax(x) == np.amin(x)`: all x values identical
(vacuously true on the empty and single-point lists). -/
def allSameX (pts : List DataPoint) : Bool :=
  match pts with
  | [] => true
  | p :: l => l.all (fun q => decide (q.1 = p.1))

/-- Model of `scipy.stats.linregress(x, y)` in exact arithmetic: `ValueError`
on empty input; `ValueError` when all x are identical AND `len(x) > 1` (the
guard in scipy's source), so a single-point input does NOT raise: there
`ssxm = 0` makes `slope = ssxym / ssxm` and the dependent intercept float
NaN (modelled `none`) while `r` is special-cased to the number `0.0`;
otherwise `slope = ssxym / ssxm`, `intercept = ymean - slope * xmean`, and
`r2 = ssxym^2 / (ssxm * ssym)`, with `r = 0` when either variance vanishes,
exactly as scipy special-cases the zero denominator. -/
def linregress (pts : List DataPoint) : Except LinRegError LinRegResult :=
  if pts = [] then .error .emptyInput
  else if 1 < pts.length ∧ allSameX pts = true then .error .identicalX
  else
    .ok ⟨if ssxm pts = 0 then none else some (ssxym pts / ssxm pts),
         if ssxm pts = 0 then none
           else some (ymean pts - ssxym pts / ssxm pts * xmean pts),
         if ssxm pts = 0 ∨ ssym pts = 0 then 0
           else ssxym pts * ssxym pts / (ssxm pts * ssym pts)⟩

/-! ### FixedRangeExtractor: the 10%-40% of peak selection -/

/-- Model of `df["tensao_pa"].max()`: maximum y value of a curve (0 on the empty curve,
where pandas would give NaN; every use is guarded by `tensao_max_pa > 0`). -/
def maxY : List DataPoint → ℚ
  | [] => 0
  | p :: l => (l.map (fun q => q.2)).foldl max p.2

/-- The fixed-range row filter of `processar_cp`:
`df[(tensao >= lowFrac * max) & (tensao <= highFrac * max)]`. -/
def selectFixedRange (c : List DataPoint) (lowFrac highFrac : ℚ) : List DataPoint :=
  c.filter (fun p => decide (lowFrac * maxY c ≤ p.2) && decide (p.2 ≤ highFrac * maxY c))

/-- Failure modes of the fixed-range extraction. -/
inductive FixedRangeError : Type
  | insufficientData : FixedRangeError
  | regressionFailed : FixedRangeError
deriving DecidableEq

/-- Fixed-range extraction: select the points in the two-fraction band of the
peak, fail when fewer than `minPts` remain (`len(df_filtrado) < 2` in
src/index_semiauto_data.py, threshold 1500 in src/index_auto.py), otherwise
delegate to `linregress`, whose `ValueError` is caught and turned into a
failure of the whole extraction. -/
def fixedRangeFit (c : List DataPoint) (lowFrac highFrac : ℚ) (minPts : ℕ) :
    Except FixedRangeError LinRegResult :=
  if (selectFixedRange c lowFrac highFrac).length < minPts then .error .insufficientData
  else
    match linregress (selectFixedRange c lowFrac highFrac) with
    | .ok r => .ok r
    | .error _ => .error .regressionFailed

/-! ### WindowSearchExtractor: hunting_E_best_R2 from src/index_auto.py -/

/-- Model of `df["tensao_pa"].idxmax()`: position of the first sample attaining the
maximum y (pandas idxmax returns the first occurrence; the frame has been
reset to positional indices 0..n-1 beforehand). -/
def idxmaxY (c : List DataPoint) : ℕ := c.findIdx (fun p => decide (p.2 = maxY c))

/-- The running-best state of `hunting_E_best_R2`: `best_r2_global = -1.0`,
`best_E_global = NaN`, `best_intercept_global = NaN`,
`best_start_idx_global = -1`, `best_end_idx_global = -1`,
`best_window_size_global = 0`. NaN floats are modelled as `none`. -/
structure HState : Type where
  bestR2 : ℚ
  bestE : Option ℚ
  bestIntercept : Option ℚ
  bestStart : Int
  bestEnd : Int
  bestWindow : ℕ
deriving DecidableEq

/-- Initial values of the six `best_*_global` variables. -/
def initState : HState := ⟨-1, none, none, -1, -1, 0⟩

/-- The six-tuple returned by `hunting_E_best_R2`; each slot is `none` where
the code returns a float NaN. -/
structure HuntOutput : Type where
  bestE : Option ℚ
  bestR2 : Option ℚ
  bestIntercept : Option ℚ
  bestStart : Option Int
  bestEnd : Option Int
  bestWindow : Option ℕ
deriving DecidableEq

/-- The all-NaN tuple returned when the restricted domain is too small. -/
def insufficientOutput : HuntOutput := ⟨none, none, none, none, none, none⟩

/-- Packaging of the final loop state into the returned tuple. -/
def stateToOutput (s : HState) : HuntOutput :=
  ⟨s.bestE, some s.bestR2, s.bestIntercept, some s.bestStart, some s.bestEnd, some s.bestWindow⟩

/-- The window `df_search.iloc[i : i + ws]` of the search domain `d`. -/
def windowSlice (d : List DataPoint) (i ws : ℕ) : List DataPoint := (d.drop i).take ws

/-- The regression of one candidate window `(ws, i)`. -/
def winFit (d : List DataPoint) (c : ℕ × ℕ) : Except LinRegError LinRegResult :=
  linregress (windowSlice d c.2 c.1)

/-- Model of `range(0, n_points - window_size + 1, R2_STEP_SIZE)`: the start indices
`0, step, 2*step, …` not exceeding `n - ws` (for `step > 0`). -/
def windowStarts (n ws step : ℕ) : List ℕ :=
  (List.range ((n - ws) / step + 1)).map (fun k => k * step)

/-- The candidate windows `(window_size, start)` in scan order: window sizes
outer (in the given list order, sizes larger than the domain skipped by
`continue`), start indices inner ascending. -/
def huntCands (n : ℕ) (sizes : List ℕ) (step : ℕ) : List (ℕ × ℕ) :=
  (sizes.filter (fun ws => decide (ws ≤ n))).flatMap
    (fun ws => (windowStarts n ws step).map (fun i => (ws, i)))

/-- The recorded best after a strict improvement by candidate `c = (ws, i)`
with fit `r`: indices `best_start = i`, `best_end = i + ws - 1` (inclusive),
`best_window_size = ws`. -/
def mkBest (c : ℕ × ℕ) (r : LinRegResult) : HState :=
  ⟨r.r2, r.slope, r.intercept, (c.2 : Int), (c.2 : Int) + (c.1 : Int) - 1, c.1⟩

/-- One iteration of the sliding-window loop: fit the window; on `ValueError`
ignore it (`except ValueError: continue`); otherwise record it as the new best
exactly when `r_squared > best_r2_global` (strict). -/
def stepCand (d : List DataPoint) (s : HState) (c : ℕ × ℕ) : HState :=
  match winFit d c with
  | .error _ => s
  | .ok r => if s.bestR2 < r.r2 then mkBest c r else s

/-- Model of `hunting_E_best_R2(df_ensaio, max_sigma_index)` generalized over the
module constants (`R2_WINDOW_SIZES`, `R2_STEP_SIZE`, `MIN_R2_WINDOW_POINTS`):
restrict the search domain to the first `maxSigmaIndex` samples, return the
all-NaN tuple when fewer than `minTotal` samples remain, otherwise fold the
sliding-window loop over all candidate windows and return the best found. -/
def hunting_E_best_R2 (curve : List DataPoint) (maxSigmaIndex : ℕ)
    (sizes : List ℕ) (step minTotal : ℕ) : HuntOutput :=
  if (curve.take maxSigmaIndex).length < minTotal then insufficientOutput
  else
    stateToOutput
      (((huntCands (curve.take maxSigmaIndex).length sizes step)).foldl
        (stepCand (curve.take maxSigmaIndex)) initState)

/-- Constant `MIN_R2_WINDOW_POINTS` from src/index_auto.py. -/
def MIN_R2_WINDOW_POINTS : ℕ := 1500

/-- Constant `R2_WINDOW_SIZES` from src/index_auto.py. -/
def R2_WINDOW_SIZES : List ℕ := [1500, 2000, 3000, 4000]

/-- Constant `R2_STEP_SIZE` from src/index_auto.py. -/
def R2_STEP_SIZE : ℕ := 50

/-! ### BatchRunner: processar_cp and the batch loop of src/index_semiauto_data.py -/

/-- Constant `MEGA_TO_SI`. -/
def MEGA_TO_SI : ℚ := 1000000

/-- Constant `L0_MM`. -/
def L0_MM : ℚ := 50

/-- Constant `PERCENTUAL_MIN_MODULO`. -/
def PERCENTUAL_MIN_MODULO : ℚ := 1 / 10

/-- Constant `PERCENTUAL_MAX_MODULO`. -/
def PERCENTUAL_MAX_MODULO : ℚ := 2 / 5

/-- The row of results `processar_cp` returns for one specimen. -/
structure CPResult : Type where
  E_modulo : Option ℚ
  r_squared : ℚ
  intercept : Option ℚ
  tensao_max : ℚ
deriving DecidableEq

/-- One raw table row after numeric coercion: `(deformacao_mm, forca_n)`,
`none` marking a cell that failed `pd.to_numeric(…, errors="coerce")`. -/
abbrev RawRow : Type := Option ℚ × Option ℚ

/-- Model of `dropna(subset=["deformacao_mm", "forca_n"])`: keep rows where both cells
coerced. -/
def cleanRows (rows : List RawRow) : List (ℚ × ℚ) :=
  rows.filterMap (fun r =>
    match r.1, r.2 with
    | some d, some f => some (d, f)
    | _, _ => none)

/-- The canonical curve of a specimen:
`x = deformacao_especifica = -deformacao_mm / L0_MM`,
`y = tensao_pa = forca_n / area * MEGA_TO_SI`. -/
def curveOf (rows : List RawRow) (area_mm2 : ℚ) : List DataPoint :=
  (cleanRows rows).map (fun df => (-df.1 / L0_MM, df.2 / area_mm2 * MEGA_TO_SI))

/-- Model of `processar_cp(cp_nome, area_mm2)` of src/index_semiauto_data.py after the
file has been read: drop non-numeric rows; `None` when nothing remains;
compute `tensao_pa = forca / area * 1e6` and
`deformacao_especifica = -deformacao / 50`; `None` when the peak stress is not
positive; select the 10%-40% band of the peak; `None` when fewer than 2 rows
are selected; regress stress on strain, `None` when `linregress` raises. -/
def processar_cp (rows : List RawRow) (area_mm2 : ℚ) : Option CPResult :=
  if cleanRows rows = [] then none
  else
    if maxY (curveOf rows area_mm2) ≤ 0 then none
    else
      if (selectFixedRange (curveOf rows area_mm2) PERCENTUAL_MIN_MODULO
            PERCENTUAL_MAX_MODULO).length < 2 then none
      else
        match linregress (selectFixedRange (curveOf rows area_mm2) PERCENTUAL_MIN_MODULO
            PERCENTUAL_MAX_MODULO) with
        | .ok r => some ⟨r.slope, r.r2, r.intercept, maxY (curveOf rows area_mm2)⟩
        | .error _ => none

/-- One batch entry: the raw rows of its ensaio file plus its area. -/
abbrev BatchEntry : Type := List RawRow × ℚ

/-- The body of the batch loop of `main`: `resultado = processar_cp(...)`;
`if resultado: resultados_list.append(resultado)` — an entry whose processing
returned `None` contributes nothing. -/
def batchStep (acc : List CPResult) (entry : BatchEntry) : List CPResult :=
  match processar_cp entry.1 entry.2 with
  | some r => acc ++ [r]
  | none => acc

/-- The batch loop of `main` over the manifest of valid specimens. -/
def batchRun (manifest : List BatchEntry) : List CPResult :=
  manifest.foldl batchStep []

/-! ### Helper lemmas about folds, maxima and sums -/

lemma le_foldl_max_init (l : List ℚ) (a : ℚ) : a ≤ l.foldl max a := by
  induction l generalizing a with
  | nil => exact le_refl a
  | cons b l ih => exact le_trans (le_max_left a b) (ih (max a b))

lemma le_foldl_max_of_mem {l : List ℚ} {x : ℚ} (a : ℚ) (h : x ∈ l) : x ≤ l.foldl max a := by
  induction l generalizing a with
  | nil => cases h
  | cons b l ih =>
    rcases List.mem_cons.1 h with rfl | hx
    · exact le_trans (le_max_right a x) (le_foldl_max_init l (max a x))
    · exact ih (max a b) hx

lemma foldl_max_choice (l : List ℚ) (a : ℚ) : l.foldl max a = a ∨ l.foldl max a ∈ l := by
  induction l generalizing a with
  | nil => exact Or.inl rfl
  | cons b l ih =>
    rcases ih (max a b) with h | h
    · rcases max_choice a b with hab | hab
      · exact Or.inl (by rw [List.foldl_cons, h, hab])
      · exact Or.inr (by rw [List.foldl_cons, h, hab]; exact List.mem_cons_self b l)
    · exact Or.inr (List.mem_cons_of_mem b h)

lemma le_maxY_of_mem {c : List DataPoint} {p : DataPoint} (h : p ∈ c) : p.2 ≤ maxY c := by
  cases c with
  | nil => cases h
  | cons q l =>
    rcases List.mem_cons.1 h with rfl | hp
    · exact le_foldl_max_init (l.map (fun q => q.2)) p.2
    · exact le_foldl_max_of_mem q.2 (List.mem_map_of_mem (fun q => q.2) hp)

lemma maxY_attained {c : List DataPoint} (h : c ≠ []) : ∃ p ∈ c, p.2 = maxY c := by
  cases c with
  | nil => exact absurd rfl h
  | cons q l =>
    rcases foldl_max_choice (l.map (fun r => r.2)) q.2 with hc | hc
    · exact ⟨q, List.mem_cons_self q l, hc.symm⟩
    · rcases List.mem_map.1 hc with ⟨p, hp, hpv⟩
      exact ⟨p, List.mem_cons_of_mem q hp, hpv⟩

lemma length_filter_mono {α : Type} (l : List α) (p q : α → Bool)
    (h : ∀ a ∈ l, p a = true → q a = true) :
    (l.filter p).length ≤ (l.filter q).length := by
  induction l with
  | nil => exact le_refl 0
  | cons a l ih =>
    have ih' := ih (fun b hb hpb => h b (List.mem_cons_of_mem a hb) hpb)
    by_cases hpa : p a = true
    · rw [List.filter_cons_of_pos hpa, List.filter_cons_of_pos (h a (List.mem_cons_self a l) hpa)]
      simpa using Nat.succ_le_succ ih'
    · rw [List.filter_cons_of_neg (by simpa using hpa)]
      by_cases hqa : q a = true
      · rw [List.filter_cons_of_pos hqa]
        exact le_trans ih' (by simp)
      · rw [List.filter_cons_of_neg (by simpa using hqa)]
        exact ih'

lemma not_pred_of_mem_take_findIdx {α : Type} (l : List α) (q : α → Bool) (x : α)
    (h : x ∈ l.take (l.findIdx q)) : q x = false := by
  induction l with
  | nil => simp at h
  | cons a l ih =>
    by_cases hqa : q a = true
    · rw [List.findIdx_cons] at h
      simp [hqa] at h
    · have hqa' : q a = false := by
        cases hq : q a with
        | true => exact absurd hq hqa
        | false => rfl
      rw [List.findIdx_cons] at h
      simp only [hqa', cond_false, List.take_succ_cons] at h
      rcases List.mem_cons.1 h with rfl | hx
      · exact hqa'
      · exact ih hx

/-! ### Helper lemmas about linregress -/

lemma ssxm_nonneg (pts : List DataPoint) : 0 ≤ ssxm pts := by
  refine div_nonneg (List.sum_nonneg ?_) (Nat.cast_nonneg _)
  intro x hx
  rcases List.mem_map.1 hx with ⟨p, _, rfl⟩
  exact mul_self_nonneg _

lemma ssym_nonneg (pts : List DataPoint) : 0 ≤ ssym pts := by
  refine div_nonneg (List.sum_nonneg ?_) (Nat.cast_nonneg _)
  intro x hx
  rcases List.mem_map.1 hx with ⟨p, _, rfl⟩
  exact mul_self_nonneg _

lemma r2_nonneg_of_ok {pts : List DataPoint} {r : LinRegResult}
    (h : linregress pts = .ok r) : 0 ≤ r.r2 := by
  unfold linregress at h
  by_cases h1 : pts = []
  · rw [if_pos h1] at h; cases h
  · rw [if_neg h1] at h
    by_cases h2 : 1 < pts.length ∧ allSameX pts = true
    · rw [if_pos h2] at h; cases h
    · rw [if_neg h2] at h
      cases h
      by_cases h3 : ssxm pts = 0 ∨ ssym pts = 0
      · simp [h3]
      · simp only [h3, if_false]
        exact div_nonneg (mul_self_nonneg _) (mul_nonneg (ssxm_nonneg pts) (ssym_nonneg pts))

lemma linregress_error_identicalX {pts : List DataPoint} (hlen : 2 ≤ pts.length)
    (h : ∀ p ∈ pts, ∀ q ∈ pts, p.1 = q.1) : linregress pts = .error .identicalX := by
  have hne : pts ≠ [] := by
    intro he
    rw [he] at hlen
    simp at hlen
  have hsame : allSameX pts = true := by
    cases pts with
    | nil => rfl
    | cons p l =>
      simp only [allSameX, List.all_eq_true, decide_eq_true_eq]
      intro q hq
      exact h q (List.mem_cons_of_mem p hq) p (List.mem_cons_self p l)
  rw [linregress, if_neg hne, if_pos ⟨by omega, hsame⟩]

/-! ### Helper lemmas about the sliding-window fold -/

lemma stepCand_bestR2_le (d : List DataPoint) (s : HState) (c : ℕ × ℕ) :
    s.bestR2 ≤ (stepCand d s c).bestR2 := by
  cases hf : winFit d c with
  | error e => simp [stepCand, hf]
  | ok r =>
    simp only [stepCand, hf]
    by_cases hlt : s.bestR2 < r.r2
    · rw [if_pos hlt]; exact le_of_lt hlt
    · rw [if_neg hlt]

lemma foldl_bestR2_mono (d : List DataPoint) (l : List (ℕ × ℕ)) (s : HState) :
    s.bestR2 ≤ (l.foldl (stepCand d) s).bestR2 := by
  induction l generalizing s with
  | nil => exact le_refl _
  | cons c l ih => exact le_trans (stepCand_bestR2_le d s c) (ih (stepCand d s c))

lemma foldl_bestR2_dominates (d : List DataPoint) (l : List (ℕ × ℕ)) (s : HState) :
    ∀ c ∈ l, ∀ r, winFit d c = .ok r → r.r2 ≤ (l.foldl (stepCand d) s).bestR2 := by
  induction l generalizing s with
  | nil => intro c hc; cases hc
  | cons c0 l ih =>
    intro c hc r hr
    rcases List.mem_cons.1 hc with rfl | hc'
    · have h1 : r.r2 ≤ (stepCand d s c).bestR2 := by
        simp only [stepCand, hr]
        by_cases hlt : s.bestR2 < r.r2
        · rw [if_pos hlt]; simp [mkBest]
        · rw [if_neg hlt]; exact le_of_not_lt hlt
      exact le_trans h1 (foldl_bestR2_mono d l (stepCand d s c))
    · exact ih (stepCand d s c0) c hc' r hr

lemma foldl_first (d : List DataPoint) (l : List (ℕ × ℕ)) (s : HState) :
    (l.foldl (stepCand d) s = s ∧ ∀ c ∈ l, ∀ r, winFit d c = .ok r → r.r2 ≤ s.bestR2) ∨
    (∃ k c r, l.get? k = some c ∧ winFit d c = .ok r ∧
      l.foldl (stepCand d) s = mkBest c r ∧ s.bestR2 < r.r2 ∧
      ∀ j c2 r2, j < k → l.get? j = some c2 → winFit d c2 = .ok r2 → r2.r2 < r.r2) := by
  induction l generalizing s with
  | nil =>
    left
    exact ⟨rfl, by intro c hc; cases hc⟩
  | cons c0 l ih =>
    cases hf : winFit d c0 with
    | error e =>
      have hstep : stepCand d s c0 = s := by simp [stepCand, hf]
      rcases ih s with ⟨heq, hall⟩ | ⟨k, c, r, hget, hok, heq, hgt, hfirst⟩
      · left
        refine ⟨by rw [List.foldl_cons, hstep]; exact heq, ?_⟩
        intro c hc r hr
        rcases List.mem_cons.1 hc with rfl | hc'
        · rw [hf] at hr; cases hr
        · exact hall c hc' r hr
      · right
        refine ⟨k + 1, c, r, by simpa using hget, hok,
          by rw [List.foldl_cons, hstep]; exact heq, hgt, ?_⟩
        intro j c2 r2 hj hgj hok2
        cases j with
        | zero =>
          have hc2 : c0 = c2 := by simpa using hgj
          rw [← hc2, hf] at hok2; cases hok2
        | succ j =>
          exact hfirst j c2 r2 (by omega) (by simpa using hgj) hok2
    | ok r0 =>
      by_cases hlt : s.bestR2 < r0.r2
      · have hstep : stepCand d s c0 = mkBest c0 r0 := by simp [stepCand, hf, if_pos hlt]
        rcases ih (mkBest c0 r0) with ⟨heq, _⟩ | ⟨k, c, r, hget, hok, heq, hgt, hfirst⟩
        · right
          refine ⟨0, c0, r0, rfl, hf, by rw [List.foldl_cons, hstep]; exact heq, hlt, ?_⟩
          intro j c2 r2 hj
          omega
        · right
          have hr0r : r0.r2 < r.r2 := hgt
          refine ⟨k + 1, c, r, by simpa using hget, hok,
            by rw [List.foldl_cons, hstep]; exact heq, lt_trans hlt hr0r, ?_⟩
          intro j c2 r2 hj hgj hok2
          cases j with
          | zero =>
            have hc2 : c0 = c2 := by simpa using hgj
            rw [← hc2, hf] at hok2
            cases hok2
            exact hr0r
          | succ j =>
            exact hfirst j c2 r2 (by omega) (by simpa using hgj) hok2
      · have hstep : stepCand d s c0 = s := by simp [stepCand, hf, if_neg hlt]
        rcases ih s with ⟨heq, hall⟩ | ⟨k, c, r, hget, hok, heq, hgt, hfirst⟩
        · left
          refine ⟨by rw [List.foldl_cons, hstep]; exact heq, ?_⟩
          intro c hc r hr
          rcases List.mem_cons.1 hc with rfl | hc'
          · rw [hf] at hr
            cases hr
            exact le_of_not_lt hlt
          · exact hall c hc' r hr
        · right
          refine ⟨k + 1, c, r, by simpa using hget, hok,
            by rw [List.foldl_cons, hstep]; exact heq, hgt, ?_⟩
          intro j c2 r2 hj hgj hok2
          cases j with
          | zero =>
            have hc2 : c0 = c2 := by simpa using hgj
            rw [← hc2, hf] at hok2
            cases hok2
            exact lt_of_le_of_lt (le_of_not_lt hlt) hgt
          | succ j =>
            exact hfirst j c2 r2 (by omega) (by simpa using hgj) hok2

lemma foldl_allfail (d : List DataPoint) :
    ∀ (l : List (ℕ × ℕ)) (s : HState),
      (∀ c ∈ l, ∃ e, winFit d c = .error e) → l.foldl (stepCand d) s = s := by
  intro l
  induction l with
  | nil => intro s _; rfl
  | cons c0 l ih =>
    intro s h
    rcases h c0 (List.mem_cons_self c0 l) with ⟨e, he⟩
    have hstep : stepCand d s c0 = s := by simp [stepCand, he]
    rw [List.foldl_cons, hstep]
    exact ih s (fun c hc => h c (List.mem_cons_of_mem c0 hc))

lemma mem_huntCands {n : ℕ} {sizes : List ℕ} {step ws k : ℕ}
    (hws : ws ∈ sizes) (hwn : ws ≤ n) (hstep : 0 < step)
    (hik : step * k + ws ≤ n) : (ws, step * k) ∈ huntCands n sizes step := by
  rw [huntCands, List.mem_flatMap]
  refine ⟨ws, List.mem_filter.2 ⟨hws, by simpa using hwn⟩, ?_⟩
  have hks : step * k ∈ windowStarts n ws step := by
    rw [windowStarts, List.mem_map]
    have h1 : step * k ≤ n - ws := Nat.le_sub_of_add_le hik
    have h2 : k ≤ (n - ws) / step :=
      (Nat.le_div_iff_mul_le hstep).2 (by rw [Nat.mul_comm]; exact h1)
    exact ⟨k, List.mem_range.2 (by omega), Nat.mul_comm k step⟩
  rw [List.mem_map]
  exact ⟨step * k, hks, rfl⟩

lemma foldl_batchStep_append (l : List BatchEntry) :
    ∀ acc : List CPResult,
      l.foldl batchStep acc = acc ++ l.filterMap (fun e => processar_cp e.1 e.2) := by
  induction l with
  | nil => intro acc; simp
  | cons e l ih =>
    intro acc
    rw [List.foldl_cons]
    cases hp : processar_cp e.1 e.2 with
    | some r =>
      have hstep : batchStep acc e = acc ++ [r] := by simp [batchStep, hp]
      rw [hstep, ih, List.filterMap_cons, hp, List.append_assoc]
      rfl
    | none =>
      have hstep : batchStep acc e = acc := by simp [batchStep, hp]
      rw [hstep, ih, List.filterMap_cons, hp]

/-- Concrete evaluation: the two-point window on the line `y = x` fits with
slope 1, intercept 0, r_squared 1. -/
lemma linregress_line01 :
    linregress [((0:ℚ), (0:ℚ)), (1, 1)] = .ok ⟨some 1, some 0, 1⟩ := by
  rw [linregress, if_neg (by decide), if_neg (by decide)]
  norm_num [ssxm, ssym, ssxym, xmean, ymean]

/-- Concrete evaluation: every candidate window of the constant-x 3-sample
domain fails its regression with `ValueError` (identical x values). -/
lemma huntCands_constx_allfail :
    ∀ c ∈ huntCands (List.take 3 [((5:ℚ), (1:ℚ)), (5, 2), (5, 3)]).length [2] 1,
      ∃ e, winFit (List.take 3 [((5:ℚ), (1:ℚ)), (5, 2), (5, 3)]) c = .error e := by
  intro c hc
  have hL : huntCands (List.take 3 [((5:ℚ), (1:ℚ)), (5, 2), (5, 3)]).length [2] 1 =
      [(2, 0), (2, 1)] := by decide
  rw [hL] at hc
  rcases List.mem_cons.1 hc with rfl | hc
  · exact ⟨.identicalX, by decide⟩
  · rcases List.mem_cons.1 hc with rfl | hc
    · exact ⟨.identicalX, by decide⟩
    · cases hc

/-! ### Claims -/

/-- C1: for every curve and search configuration, the r_squared in the result
returned by the window search (`hunting_E_best_R2`) is greater than or equal
to the r_squared of every individually-fit candidate window it examined:
every window `[i, i + window_size)` with `window_size` drawn from
`window_sizes` (not exceeding the domain length) and start index
`i = step * k` a multiple of `step` with `i + window_size ≤ domain length`. -/
theorem hunting_returns_max_r2 (curve : List DataPoint) (maxSigmaIndex : ℕ)
    (sizes : List ℕ) (step minTotal ws k : ℕ) (res : LinRegResult)
    (hmin : minTotal ≤ (curve.take maxSigmaIndex).length)
    (hstep : 0 < step)
    (hws : ws ∈ sizes)
    (hwn : ws ≤ (curve.take maxSigmaIndex).length)
    (hik : step * k + ws ≤ (curve.take maxSigmaIndex).length)
    (hfit : linregress (windowSlice (curve.take maxSigmaIndex) (step * k) ws) = .ok res) :
    ∃ v, (hunting_E_best_R2 curve maxSigmaIndex sizes step minTotal).bestR2 = some v ∧
      res.r2 ≤ v := by
  rw [hunting_E_best_R2, if_neg (not_lt.2 hmin)]
  refine ⟨_, rfl, ?_⟩
  exact foldl_bestR2_dominates (curve.take maxSigmaIndex) _ initState (ws, step * k)
    (mem_huntCands hws hwn hstep hik) res hfit

/-- Witness for C1 at a concrete input: the 3-point line `y = x`, window size
2, step 1; the window starting at 0 fits perfectly (r2 = 1) and the returned
best r_squared dominates it. -/
theorem hunting_returns_max_r2_witness :
    ∃ v, (hunting_E_best_R2 [((0:ℚ), (0:ℚ)), (1, 1), (2, 2)] 3 [2] 1 2).bestR2 = some v ∧
      (⟨some 1, some 0, 1⟩ : LinRegResult).r2 ≤ v :=
  hunting_returns_max_r2 [((0:ℚ), (0:ℚ)), (1, 1), (2, 2)] 3 [2] 1 2 2 0 ⟨some 1, some 0, 1⟩
    (by decide) (by decide) (by decide) (by decide) (by decide) linregress_line01

/-- C3: if the restricted search domain `curve[0 : search_end_index]` has
fewer than `min_total_points` samples, the window search returns its
distinguished insufficient-data failure (the all-NaN tuple of
src/index_auto.py line 48) immediately, attempting no fit at all. -/
theorem hunting_insufficient_guard (curve : List DataPoint) (maxSigmaIndex : ℕ)
    (sizes : List ℕ) (step minTotal : ℕ)
    (h : (curve.take maxSigmaIndex).length < minTotal) :
    hunting_E_best_R2 curve maxSigmaIndex sizes step minTotal = insufficientOutput := by
  rw [hunting_E_best_R2, if_pos h]

/-- Witness for C3: a domain of size 4 with the canonical configuration
(`min_total_points = 1500`) yields the insufficient-data failure. -/
theorem hunting_insufficient_guard_witness :
    hunting_E_best_R2 [((0:ℚ), (1:ℚ)), (1, 2), (2, 3), (3, 4), (4, 5)] 4
      R2_WINDOW_SIZES R2_STEP_SIZE MIN_R2_WINDOW_POINTS = insufficientOutput :=
  hunting_insufficient_guard _ _ _ _ _ (by decide)

/-- C9 counterexample: a domain of 3 constant-x samples with
`min_total_points = 2`, window size 2, step 1 passes the size guard, every
candidate window's regression fails (identical x), and the search returns the
numeric sentinel `best_r2_global = -1.0` as its r_squared — not an explicit
error kind. -/
theorem hunting_sentinel_counterexample :
    (hunting_E_best_R2 [((5:ℚ), (1:ℚ)), (5, 2), (5, 3)] 3 [2] 1 2).bestR2 = some (-1) := by
  rw [hunting_E_best_R2, if_neg (by decide),
    foldl_allfail (List.take 3 [((5:ℚ), (1:ℚ)), (5, 2), (5, 3)]) _ initState
      huntCands_constx_allfail]
  rfl

/-- C9 amended: if the search domain has at least `min_total_points` samples
but no candidate window ever produced a defined fit, `hunting_E_best_R2`
returns the sentinel tuple `(E = NaN, r_squared = -1.0, intercept = NaN,
start = -1, end = -1, window_size = 0)` — the initial values of the running
best — rather than an explicit error kind. -/
theorem hunting_no_window_sentinel (curve : List DataPoint) (maxSigmaIndex : ℕ)
    (sizes : List ℕ) (step minTotal : ℕ)
    (hmin : minTotal ≤ (curve.take maxSigmaIndex).length)
    (hfail : ∀ c ∈ huntCands (curve.take maxSigmaIndex).length sizes step,
      ∃ e, winFit (curve.take maxSigmaIndex) c = .error e) :
    hunting_E_best_R2 curve maxSigmaIndex sizes step minTotal =
      ⟨none, some (-1), none, some (-1), some (-1), some 0⟩ := by
  rw [hunting_E_best_R2, if_neg (not_lt.2 hmin),
    foldl_allfail (curve.take maxSigmaIndex) _ initState hfail]
  rfl

/-- Witness for C9's amended theorem at the constant-x domain. -/
theorem hunting_no_window_sentinel_witness :
    hunting_E_best_R2 [((5:ℚ), (1:ℚ)), (5, 2), (5, 3)] 3 [2] 1 2 =
      ⟨none, some (-1), none, some (-1), some (-1), some 0⟩ :=
  hunting_no_window_sentinel [((5:ℚ), (1:ℚ)), (5, 2), (5, 3)] 3 [2] 1 2 (by decide)
    huntCands_constx_allfail

/-- C4: the window search returns the first-found best under its scan order.
`huntCands` enumerates exactly the loop order of `hunting_E_best_R2`: window
sizes outer, in the order given by `window_sizes` (ascending, smallest first,
in the canonical `R2_WINDOW_SIZES`), start indices inner ascending. Whenever
any candidate window fits, the returned tuple is the record of the candidate
at some scan position `k` whose r_squared strictly exceeds that of every
fittable candidate at an earlier scan position — so, the comparison being
strict greater-than, ties are won by the earliest candidate: the smallest
window size and, within it, the smallest start index. -/
theorem hunting_tiebreak_first_found (curve : List DataPoint) (maxSigmaIndex : ℕ)
    (sizes : List ℕ) (step minTotal : ℕ)
    (hmin : minTotal ≤ (curve.take maxSigmaIndex).length)
    (hex : ∃ c ∈ huntCands (curve.take maxSigmaIndex).length sizes step,
      ∃ r, winFit (curve.take maxSigmaIndex) c = .ok r) :
    ∃ k c res,
      (huntCands (curve.take maxSigmaIndex).length sizes step).get? k = some c ∧
      winFit (curve.take maxSigmaIndex) c = .ok res ∧
      hunting_E_best_R2 curve maxSigmaIndex sizes step minTotal =
        ⟨res.slope, some res.r2, res.intercept, some (c.2 : Int),
          some ((c.2 : Int) + (c.1 : Int) - 1), some c.1⟩ ∧
      ∀ j c2 r2, j < k →
        (huntCands (curve.take maxSigmaIndex).length sizes step).get? j = some c2 →
        winFit (curve.take maxSigmaIndex) c2 = .ok r2 → r2.r2 < res.r2 := by
  rcases foldl_first (curve.take maxSigmaIndex)
      (huntCands (curve.take maxSigmaIndex).length sizes step) initState with
    ⟨_, hall⟩ | ⟨k, c, r, hget, hok, heq, _, hfirst⟩
  · exfalso
    rcases hex with ⟨c, hc, r, hr⟩
    have h0 : 0 ≤ r.r2 := r2_nonneg_of_ok hr
    have h1 : r.r2 ≤ initState.bestR2 := hall c hc r hr
    have h2 : initState.bestR2 = -1 := rfl
    rw [h2] at h1
    linarith
  · refine ⟨k, c, r, hget, hok, ?_, hfirst⟩
    rw [hunting_E_best_R2, if_neg (not_lt.2 hmin), heq]
    rfl

/-- Witness for C4 at a concrete tie: on the 3-point line `y = x` with window
size 2 and step 1, both candidate windows fit with r_squared = 1; the search
returns the record of a scan position strictly beating all earlier fittable
positions (position 0, start index 0). -/
theorem hunting_tiebreak_first_found_witness :
    ∃ k c res,
      (huntCands (List.take 3 [((0:ℚ), (0:ℚ)), (1, 1), (2, 2)]).length [2] 1).get? k =
        some c ∧
      winFit (List.take 3 [((0:ℚ), (0:ℚ)), (1, 1), (2, 2)]) c = .ok res ∧
      hunting_E_best_R2 [((0:ℚ), (0:ℚ)), (1, 1), (2, 2)] 3 [2] 1 2 =
        ⟨res.slope, some res.r2, res.intercept, some (c.2 : Int),
          some ((c.2 : Int) + (c.1 : Int) - 1), some c.1⟩ ∧
      ∀ j c2 r2, j < k →
        (huntCands (List.take 3 [((0:ℚ), (0:ℚ)), (1, 1), (2, 2)]).length [2] 1).get? j =
          some c2 →
        winFit (List.take 3 [((0:ℚ), (0:ℚ)), (1, 1), (2, 2)]) c2 = .ok r2 →
          r2.r2 < res.r2 :=
  hunting_tiebreak_first_found [((0:ℚ), (0:ℚ)), (1, 1), (2, 2)] 3 [2] 1 2 (by decide)
    ⟨(2, 0), by decide, ⟨⟨some 1, some 0, 1⟩, linregress_line01⟩⟩

/-- C2 counterexample: the claim says the domain `curve[0 : search_end_index]`
with `search_end_index = idxmax` is "everything up to and including the point
of peak y". On the curve `[(0,0), (1,1), (2,2)]` the peak-y point `(2,2)`
(y = maxY = 2 > 0) is NOT in `curve.take (idxmaxY curve)`: the slice
`iloc[:max_sigma_index]` excludes the peak sample. -/
theorem search_domain_peak_counterexample :
    idxmaxY [((0:ℚ), (0:ℚ)), (1, 1), (2, 2)] = 2 ∧
    maxY [((0:ℚ), (0:ℚ)), (1, 1), (2, 2)] = 2 ∧
    ((2:ℚ), (2:ℚ)) ∈ [((0:ℚ), (0:ℚ)), (1, 1), (2, 2)] ∧
    ((2:ℚ), (2:ℚ)) ∉
      ([((0:ℚ), (0:ℚ)), (1, 1), (2, 2)].take (idxmaxY [((0:ℚ), (0:ℚ)), (1, 1), (2, 2)])) := by
  decide

/-- C2 amended: the window search restricts its domain to
`curve.take search_end_index` and no fitted candidate window contains any
sample outside this domain (every sample of every window slice belongs to the
domain, and every domain sample to the curve); in the canonical use
`search_end_index = idxmaxY curve`, the domain is everything STRICTLY BEFORE
the first peak-y sample — every domain sample has y strictly below the peak,
the peak point itself being excluded by the slice. -/
theorem search_domain_restriction (curve : List DataPoint) (maxSigmaIndex i ws : ℕ)
    (_hne : curve ≠ []) :
    (∀ p ∈ windowSlice (curve.take maxSigmaIndex) i ws, p ∈ curve.take maxSigmaIndex) ∧
    (∀ p ∈ curve.take maxSigmaIndex, p ∈ curve) ∧
    (∀ p ∈ curve.take (idxmaxY curve), p.2 < maxY curve) := by
  refine ⟨?_, ?_, ?_⟩
  · intro p hp
    exact List.mem_of_mem_drop (List.mem_of_mem_take hp)
  · intro p hp
    exact List.mem_of_mem_take hp
  · intro p hp
    have hpf : (fun q : DataPoint => decide (q.2 = maxY curve)) p = false :=
      not_pred_of_mem_take_findIdx curve _ p hp
    have hneq : p.2 ≠ maxY curve := by simpa using hpf
    exact lt_of_le_of_ne (le_maxY_of_mem (List.mem_of_mem_take hp)) hneq

/-- Witness for C2's amended theorem on the concrete curve
`[(0,0), (1,1), (2,2)]` with the canonical domain end. -/
theorem search_domain_restriction_witness :
    (∀ p ∈ windowSlice ([((0:ℚ), (0:ℚ)), (1, 1), (2, 2)].take 2) 0 2,
      p ∈ [((0:ℚ), (0:ℚ)), (1, 1), (2, 2)].take 2) ∧
    (∀ p ∈ [((0:ℚ), (0:ℚ)), (1, 1), (2, 2)].take 2,
      p ∈ [((0:ℚ), (0:ℚ)), (1, 1), (2, 2)]) ∧
    (∀ p ∈ [((0:ℚ), (0:ℚ)), (1, 1), (2, 2)].take
        (idxmaxY [((0:ℚ), (0:ℚ)), (1, 1), (2, 2)]),
      p.2 < maxY [((0:ℚ), (0:ℚ)), (1, 1), (2, 2)]) :=
  search_domain_restriction [((0:ℚ), (0:ℚ)), (1, 1), (2, 2)] 2 0 2 (by decide)

/-- Concrete evaluation: on the curve `[(0,1), (1,2)]` (peak 2) the fractions
0 and 1 select every point. -/
lemma selectFixedRange_ex_eval :
    selectFixedRange [((0:ℚ), (1:ℚ)), (1, 2)] 0 1 = [((0:ℚ), (1:ℚ)), (1, 2)] := by
  norm_num [selectFixedRange, maxY, List.filter_cons]

/-- Concrete evaluation: the two points `(0,1), (1,2)` lie exactly on
`y = x + 1`. -/
lemma linregress_line11 :
    linregress [((0:ℚ), (1:ℚ)), (1, 2)] = .ok ⟨some 1, some 1, 1⟩ := by
  rw [linregress, if_neg (by decide), if_neg (by decide)]
  norm_num [ssxm, ssym, ssxym, xmean, ymean]

/-- C5: for every curve and fraction pair, the fixed-range extractor selects
exactly the points whose y value lies between `y_low_frac * max(y)` and
`y_high_frac * max(y)`: membership in the selection is equivalent to
membership in the curve plus the value predicate on y — it never depends on a
point's index, so the selection is insensitive to monotonicity of the curve. -/
theorem fixed_range_selects_by_value (c : List DataPoint) (lowFrac highFrac : ℚ)
    (_hmax : 0 < maxY c) (p : DataPoint) :
    p ∈ selectFixedRange c lowFrac highFrac ↔
      p ∈ c ∧ lowFrac * maxY c ≤ p.2 ∧ p.2 ≤ highFrac * maxY c := by
  simp [selectFixedRange, List.mem_filter, and_assoc]

/-- Witness for C5 on the curve `[(0,1), (1,2)]` (peak 2 > 0) at the point
`(0,1)` with fractions `(0, 1)`. -/
theorem fixed_range_selects_by_value_witness :
    ((0:ℚ), (1:ℚ)) ∈ selectFixedRange [((0:ℚ), (1:ℚ)), (1, 2)] 0 1 ↔
      ((0:ℚ), (1:ℚ)) ∈ [((0:ℚ), (1:ℚ)), (1, 2)] ∧
      0 * maxY [((0:ℚ), (1:ℚ)), (1, 2)] ≤ (1:ℚ) ∧
      (1:ℚ) ≤ 1 * maxY [((0:ℚ), (1:ℚ)), (1, 2)] :=
  fixed_range_selects_by_value [((0:ℚ), (1:ℚ)), (1, 2)] 0 1 (by decide) ((0:ℚ), (1:ℚ))

/-- C7: if fewer than `minPts` (2 in src/index_semiauto_data.py, the
caller-configured 1500 in src/index_auto.py) selected points remain after the
fixed-range selection, the extraction fails with its insufficient-data error
and no fit is returned; with at least that minimum it delegates to the linear
fitter and returns exactly that fit. -/
theorem fixed_range_min_points_guard (c : List DataPoint) (lowFrac highFrac : ℚ)
    (minPts : ℕ) :
    ((selectFixedRange c lowFrac highFrac).length < minPts →
      fixedRangeFit c lowFrac highFrac minPts = .error .insufficientData) ∧
    (minPts ≤ (selectFixedRange c lowFrac highFrac).length →
      ∀ r, linregress (selectFixedRange c lowFrac highFrac) = .ok r →
        fixedRangeFit c lowFrac highFrac minPts = .ok r) := by
  constructor
  · intro h
    rw [fixedRangeFit, if_pos h]
  · intro h r hr
    rw [fixedRangeFit, if_neg (not_lt.2 h), hr]

/-- Witness for C7 on the curve `[(0,1), (1,2)]` with fractions `(0,1)`:
with `minPts = 3` the two selected points are insufficient; with the default
`minPts = 2` the extraction returns the delegated perfect fit `y = x + 1`. -/
theorem fixed_range_min_points_guard_witness :
    fixedRangeFit [((0:ℚ), (1:ℚ)), (1, 2)] 0 1 3 = .error .insufficientData ∧
    fixedRangeFit [((0:ℚ), (1:ℚ)), (1, 2)] 0 1 2 = .ok ⟨some 1, some 1, 1⟩ :=
  ⟨(fixed_range_min_points_guard [((0:ℚ), (1:ℚ)), (1, 2)] 0 1 3).1
      (by rw [selectFixedRange_ex_eval]; decide),
    (fixed_range_min_points_guard [((0:ℚ), (1:ℚ)), (1, 2)] 0 1 2).2
      (by rw [selectFixedRange_ex_eval]; decide) ⟨some 1, some 1, 1⟩
      (by rw [selectFixedRange_ex_eval]; exact linregress_line11)⟩

/-- C8 counterexample: both halves of the claim fail on the code. On the
constant-x two-point set `[(5,1), (5,2)]` the linear fitter
`stats.linregress` raises `ValueError` (modelled as an error return) rather
than returning a FitResult flagged as degenerate — contrary to "it never
raises an exception". And on the single-point set `[(5,1)]` scipy's
identical-x check is disarmed by its `len(x) > 1` guard, so the fitter does
not raise and returns the NUMERIC r_squared 0.0 (with slope and intercept
NaN) — contrary to "never reports a numeric r_squared value for such
input". -/
theorem linregress_degenerate_counterexample :
    linregress [((5:ℚ), (1:ℚ)), (5, 2)] = .error .identicalX ∧
    linregress [((5:ℚ), (1:ℚ))] = .ok ⟨none, none, 0⟩ := by
  constructor
  · decide
  · rw [linregress, if_neg (by decide), if_neg (by decide)]
    norm_num [ssxm, ssym, ssxym, xmean, ymean]

/-- C8 amended: the degenerate inputs split into three behaviors, none of
them a degenerate-flagged FitResult. An empty point set makes
`stats.linregress` raise `ValueError` (empty input); a set of at least 2
points with constant x makes it raise `ValueError` (identical x) — in both
cases the error (which every caller catches) carries no r_squared. A
single-point set, however, is NOT caught by scipy's `len(x) > 1`-guarded
identical-x check: the fitter returns without raising, with slope and
intercept undefined (float NaN, modelled `none`) but with the numeric
r_squared 0.0. -/
theorem linregress_degenerate_behavior (pts : List DataPoint) :
    (pts = [] → linregress pts = .error .emptyInput) ∧
    (2 ≤ pts.length → (∀ p ∈ pts, ∀ q ∈ pts, p.1 = q.1) →
      linregress pts = .error .identicalX) ∧
    (∀ x y : ℚ, pts = [(x, y)] → linregress pts = .ok ⟨none, none, 0⟩) := by
  refine ⟨?_, ?_, ?_⟩
  · intro h
    rw [linregress, if_pos h]
  · intro hlen h
    exact linregress_error_identicalX hlen h
  · intro x y h
    subst h
    rw [linregress, if_neg (by simp), if_neg (by simp)]
    have hss : ssxm [(x, y)] = 0 := by
      simp [ssxm, xmean]
    rw [if_pos hss, if_pos hss, if_pos (Or.inl hss)]

/-- Witness for C8's amended theorem at all three degenerate inputs: the
empty set, the constant-x pair `[(5,1), (5,2)]`, and the single point
`[(5,1)]`. -/
theorem linregress_degenerate_behavior_witness :
    linregress ([] : List DataPoint) = .error .emptyInput ∧
    linregress [((5:ℚ), (1:ℚ)), (5, 2)] = .error .identicalX ∧
    linregress [((5:ℚ), (1:ℚ))] = .ok ⟨none, none, 0⟩ :=
  ⟨(linregress_degenerate_behavior ([] : List DataPoint)).1 rfl,
   (linregress_degenerate_behavior [((5:ℚ), (1:ℚ)), (5, 2)]).2.1 (by decide) (by decide),
   (linregress_degenerate_behavior [((5:ℚ), (1:ℚ))]).2.2 5 1 rfl⟩

/-- C10 counterexample: on the all-negative curve `[(0, -1)]` (peak -1 < 0)
the fraction range `(0, 1)` is a superset of `(1, 1)`, yet it selects FEWER
points (0 versus 1): widening the fraction range decreases the selection
because the bounds are multiplied by a negative peak. -/
theorem range_monotonicity_counterexample :
    (0:ℚ) ≤ 1 ∧ (1:ℚ) ≤ 1 ∧
    (selectFixedRange [((0:ℚ), (-1:ℚ))] 0 1).length <
      (selectFixedRange [((0:ℚ), (-1:ℚ))] 1 1).length := by
  refine ⟨by norm_num, le_refl 1, ?_⟩
  have h1 : selectFixedRange [((0:ℚ), (-1:ℚ))] 0 1 = [] := by
    norm_num [selectFixedRange, maxY, List.filter_cons]
  have h2 : selectFixedRange [((0:ℚ), (-1:ℚ))] 1 1 = [((0:ℚ), (-1:ℚ))] := by
    norm_num [selectFixedRange, maxY, List.filter_cons]
  rw [h1, h2]
  decide

/-- C10 amended: for every curve whose peak y is positive (the guard under
which both call sites run the selection), widening the fraction range to a
superset never decreases the number of selected points. -/
theorem range_monotonicity (c : List DataPoint) (lo hi lo2 hi2 : ℚ)
    (hmax : 0 < maxY c) (hlo : lo2 ≤ lo) (hhi : hi ≤ hi2) :
    (selectFixedRange c lo hi).length ≤ (selectFixedRange c lo2 hi2).length := by
  refine length_filter_mono c _ _ ?_
  intro p hp hsel
  rw [Bool.and_eq_true, decide_eq_true_eq, decide_eq_true_eq] at hsel ⊢
  exact ⟨le_trans (mul_le_mul_of_nonneg_right hlo (le_of_lt hmax)) hsel.1,
    le_trans hsel.2 (mul_le_mul_of_nonneg_right hhi (le_of_lt hmax))⟩

/-- Witness for C10's amended theorem: on `[(0,1), (1,2)]` (peak 2 > 0) the
range `(0, 1)` is a superset of `(1, 1)` and selects at least as many
points. -/
theorem range_monotonicity_witness :
    (selectFixedRange [((0:ℚ), (1:ℚ)), (1, 2)] 1 1).length ≤
      (selectFixedRange [((0:ℚ), (1:ℚ)), (1, 2)] 0 1).length :=
  range_monotonicity [((0:ℚ), (1:ℚ)), (1, 2)] 1 1 0 1 (by decide) (by norm_num)
    (le_refl 1)

/-- First manifest entry of the concrete 3-entry batch: a clean specimen
whose 10%-40% band holds the two collinear points of `y = 5e7 x`. -/
def entryA : BatchEntry :=
  ([(some (-1), some 1), (some (-2), some 2), (some (-10), some 10)], 1)

/-- Second manifest entry: its single row fails numeric coercion, so the
curve is empty after normalization. -/
def entryB : BatchEntry := ([(none, none)], 1)

/-- Third manifest entry: a clean specimen with doubled forces. -/
def entryC : BatchEntry :=
  ([(some (-1), some 2), (some (-2), some 4), (some (-10), some 20)], 1)

/-- Concrete evaluation of the first entry's processing. -/
lemma processar_entryA :
    processar_cp entryA.1 entryA.2 = some ⟨some 50000000, 1, some 0, 10000000⟩ := by
  norm_num [entryA, processar_cp, cleanRows, curveOf, selectFixedRange, maxY,
    linregress, ssxm, ssym, ssxym, xmean, ymean, MEGA_TO_SI, L0_MM,
    PERCENTUAL_MIN_MODULO, PERCENTUAL_MAX_MODULO, List.filter_cons,
    List.filterMap_cons]
  refine ⟨by simp, ?_⟩
  rw [if_neg (by simp), if_neg (by norm_num [allSameX])]

/-- Concrete evaluation of the second entry's processing: empty after
normalization, so `processar_cp` returns `None`. -/
lemma processar_entryB : processar_cp entryB.1 entryB.2 = none := by decide

/-- Concrete evaluation of the third entry's processing. -/
lemma processar_entryC :
    processar_cp entryC.1 entryC.2 = some ⟨some 100000000, 1, some 0, 20000000⟩ := by
  norm_num [entryC, processar_cp, cleanRows, curveOf, selectFixedRange, maxY,
    linregress, ssxm, ssym, ssxym, xmean, ymean, MEGA_TO_SI, L0_MM,
    PERCENTUAL_MIN_MODULO, PERCENTUAL_MAX_MODULO, List.filter_cons,
    List.filterMap_cons]
  refine ⟨by simp, ?_⟩
  rw [if_neg (by simp), if_neg (by norm_num [allSameX])]

/-- C6 counterexample: over the 3-entry manifest whose second curve is empty
after normalization, the batch loop produces only 2 output rows — the failed
entry is skipped entirely (`if resultado:` drops the `None`), no row and no
error kind is recorded for it — contradicting the claim of exactly one result
row per manifest entry. -/
theorem batch_drops_failed_entry_counterexample :
    (batchRun [entryA, entryB, entryC]).length = 2 ∧
    processar_cp entryB.1 entryB.2 = none ∧
    batchRun [entryA, entryB, entryC] =
      [⟨some 50000000, 1, some 0, 10000000⟩, ⟨some 100000000, 1, some 0, 20000000⟩] := by
  have hrun : batchRun [entryA, entryB, entryC] =
      [⟨some 50000000, 1, some 0, 10000000⟩, ⟨some 100000000, 1, some 0, 20000000⟩] := by
    rw [batchRun, foldl_batchStep_append, List.nil_append, List.filterMap_cons,
      processar_entryA, List.filterMap_cons, processar_entryB, List.filterMap_cons,
      processar_entryC, List.filterMap_nil]
  exact ⟨by rw [hrun]; rfl, processar_entryB, hrun⟩

/-- C6 amended: the batch loop never aborts on a per-entry failure and
processes every manifest entry in order, but a failing entry contributes no
output row and no recorded error kind: the output is exactly the in-order
list of the successful entries' results (`filterMap`), so a 3-entry manifest
whose second curve is empty after normalization yields 2 rows, for entries 1
and 3. -/
theorem batch_never_aborts (manifest : List BatchEntry) :
    batchRun manifest = manifest.filterMap (fun e => processar_cp e.1 e.2) := by
  rw [batchRun, foldl_batchStep_append, List.nil_append]
